import Mathlib

/-!
# Verification of `Menu.py` (restaurant-order data model and iteration strategies)

Shallow embedding of `src/Menu.py`. Python floats are modelled as exact
rationals (`ℚ`), Python ints as `ℤ`. Exceptions raised at construction are
modelled with `Except MenuError`. Mutation of the shared `Order` object is
modelled by explicit state passing: an operation that mutates the order
returns the updated `Order` alongside its result. Python's `list.sort()`
is a stable in-place ascending sort driven by `__lt__`; it is embedded as
`List.insertionSort` over the non-strict relation derived from `__lt__`
(both are stable sorts for the same total preorder, hence produce the
same output), while its `None` return value is kept as the `list` field
of the second iterator, exactly as the source stores it.
-/

/-- The two exception kinds raised by `MenuItem.__init__`
(`ValueError("Price cannot be negative!")` and
`ValueError("Quantity must be greater than zero!")`). -/
inductive MenuError where
  | invalidPrice : MenuError
  | invalidQuantity : MenuError
deriving DecidableEq, Repr

/-- `class MenuItem`: `name`, `price`, `quantity` fields. -/
structure MenuItem where
  name : String
  price : ℚ
  quantity : ℤ
deriving DecidableEq, Repr

/-- `MenuItem.__init__`: sets `name` and `price`, raises if `price < 0`,
then sets `quantity`, raises if `quantity <= 0` (price is checked first). -/
def mkMenuItem (name : String) (price : ℚ) (quantity : ℤ) :
    Except MenuError MenuItem :=
  if price < 0 then .error .invalidPrice
  else if quantity ≤ 0 then .error .invalidQuantity
  else .ok { name := name, price := price, quantity := quantity }

/-- `MenuItem.get_total_price`: `self.price * self.quantity`. -/
def MenuItem.get_total_price (item : MenuItem) : ℚ :=
  item.price * (item.quantity : ℚ)

/-- `MenuItem.change_price`: `self.price *= fee` (returns the updated item). -/
def MenuItem.change_price (item : MenuItem) (fee : ℚ) : MenuItem :=
  { item with price := item.price * fee }

/-- `MenuItem.__lt__`: `price` first, `quantity` as tie-break, else `False`. -/
def menuLt (a b : MenuItem) : Bool :=
  if a.price < b.price then
    true
  else if a.price = b.price then
    if a.quantity < b.quantity then true else false
  else
    false

/-- `class Appetizer(MenuItem)`: adds the `for_sharing` flag. -/
structure Appetizer extends MenuItem where
  for_sharing : Bool
deriving DecidableEq, Repr

/-- `Appetizer.__init__`: base construction, store the flag, then
`change_price(0.95)` when `for_sharing`. -/
def mkAppetizer (name : String) (price : ℚ) (quantity : ℤ)
    (for_sharing : Bool) : Except MenuError Appetizer :=
  (mkMenuItem name price quantity).map fun base =>
    let a : Appetizer := { toMenuItem := base, for_sharing := for_sharing }
    if a.for_sharing then
      { a with toMenuItem := a.toMenuItem.change_price 0.95 }
    else a

/-- `class MainCourse(MenuItem)`: adds the `is_meet` flag (source spelling). -/
structure MainCourse extends MenuItem where
  is_meet : Bool
deriving DecidableEq, Repr

/-- `MainCourse.__init__`: base construction, store the flag, then
`change_price(1.05)` when `is_meet`. -/
def mkMainCourse (name : String) (price : ℚ) (quantity : ℤ)
    (is_meet : Bool) : Except MenuError MainCourse :=
  (mkMenuItem name price quantity).map fun base =>
    let m : MainCourse := { toMenuItem := base, is_meet := is_meet }
    if m.is_meet then
      { m with toMenuItem := m.toMenuItem.change_price 1.05 }
    else m

/-- `class Beverage(MenuItem)`: adds `size` (descriptive) and `has_sugar`. -/
structure Beverage extends MenuItem where
  size : String
  has_sugar : Bool
deriving DecidableEq, Repr

/-- `Beverage.__init__`: base construction, store `size` and the flag, then
`change_price(1.05)` when `has_sugar`. -/
def mkBeverage (name : String) (price : ℚ) (quantity : ℤ) (size : String)
    (has_sugar : Bool) : Except MenuError Beverage :=
  (mkMenuItem name price quantity).map fun base =>
    let b : Beverage := { toMenuItem := base, size := size, has_sugar := has_sugar }
    if b.has_sugar then
      { b with toMenuItem := b.toMenuItem.change_price 1.05 }
    else b

/-- `class Dessert(MenuItem)`: adds the `on_season` flag. -/
structure Dessert extends MenuItem where
  on_season : Bool
deriving DecidableEq, Repr

/-- `Dessert.__init__`: base construction, store the flag, then
`change_price(0.95)` when `on_season`. -/
def mkDessert (name : String) (price : ℚ) (quantity : ℤ)
    (on_season : Bool) : Except MenuError Dessert :=
  (mkMenuItem name price quantity).map fun base =>
    let d : Dessert := { toMenuItem := base, on_season := on_season }
    if d.on_season then
      { d with toMenuItem := d.toMenuItem.change_price 0.95 }
    else d

/-- `class Order`: owns the ordered list `menu_items`. -/
structure Order where
  menu_items : List MenuItem
deriving DecidableEq, Repr

/-- `Order.__init__`: starts with an empty list. -/
def Order.empty : Order := { menu_items := [] }

/-- `Order.add_item`: `self.menu_items.append(item)`. -/
def Order.add_item (o : Order) (item : MenuItem) : Order :=
  { menu_items := o.menu_items ++ [item] }

/-- `str(item)` for the four variants: each `__str__` returns `self.name`. -/
def itemStr (item : MenuItem) : String := item.name

/-- `Order.show`: `[str(item) for item in self.menu_items]`. -/
def Order.show (o : Order) : List String :=
  o.menu_items.map itemStr

/-- `Order.__len__`: `len(self.menu_items)`. -/
def Order.size (o : Order) : ℕ := o.menu_items.length

/-- `Order.__iter__`: `iter(self.menu_items)` — default iteration yields the
stored items in list order. -/
def Order.defaultIter (o : Order) : List MenuItem := o.menu_items

/-- `Order.calculate_bill`: `sum(item.get_total_price() for item in self.menu_items)`. -/
def Order.calculate_bill (o : Order) : ℚ :=
  (o.menu_items.map MenuItem.get_total_price).sum

/-- `Order.apply_discount`: `total = self.calculate_bill(); return total * (1 - discount)`.
It only reads the order (no field assignment), so the embedding is a pure
function of the order. -/
def Order.apply_discount (o : Order) (discount : ℚ) : ℚ :=
  o.calculate_bill * (1 - discount)

/-! ## Sorting (`list.sort()` driven by `MenuItem.__lt__`) -/

/-- The non-strict relation underlying `list.sort()`: `a` may stay before `b`
exactly when `not (b < a)` per `MenuItem.__lt__`. -/
def menuLe (a b : MenuItem) : Prop := menuLt b a = false

instance : DecidableRel menuLe := fun a b => by
  unfold menuLe; infer_instance

/-- In-place `self.order.menu_items.sort()`: a stable ascending sort by
`__lt__`, embedded as insertion sort over `menuLe` (stable sorts for the
same total preorder agree on their output). -/
def menuSort (l : List MenuItem) : List MenuItem :=
  List.insertionSort menuLe l

theorem menuLt_iff (a b : MenuItem) :
    menuLt a b = true ↔
      a.price < b.price ∨ (a.price = b.price ∧ a.quantity < b.quantity) := by
  unfold menuLt
  split_ifs with h1 h2 h3 <;> simp_all

theorem menuLe_iff (a b : MenuItem) :
    menuLe a b ↔
      a.price < b.price ∨ (a.price = b.price ∧ a.quantity ≤ b.quantity) := by
  unfold menuLe
  rw [← Bool.not_eq_true, menuLt_iff]
  push_neg
  constructor
  · rintro ⟨hp, hq⟩
    rcases eq_or_lt_of_le hp with h | h
    · exact Or.inr ⟨h, hq h.symm⟩
    · exact Or.inl h
  · rintro (h | ⟨hp, hq⟩)
    · exact ⟨h.le, fun he => absurd (he ▸ h) (lt_irrefl _)⟩
    · exact ⟨le_of_eq hp, fun _ => hq⟩

instance : IsTotal MenuItem menuLe :=
  ⟨fun a b => by
    rw [menuLe_iff, menuLe_iff]
    rcases lt_trichotomy a.price b.price with h | h | h
    · exact Or.inl (Or.inl h)
    · rcases le_total a.quantity b.quantity with hq | hq
      · exact Or.inl (Or.inr ⟨h, hq⟩)
      · exact Or.inr (Or.inr ⟨h.symm, hq⟩)
    · exact Or.inr (Or.inl h)⟩

instance : IsTrans MenuItem menuLe :=
  ⟨fun a b c hab hbc => by
    rw [menuLe_iff] at hab hbc ⊢
    rcases hab with h1 | ⟨h1, h1q⟩ <;> rcases hbc with h2 | ⟨h2, h2q⟩
    · exact Or.inl (h1.trans h2)
    · exact Or.inl (h2 ▸ h1)
    · exact Or.inl (h1 ▸ h2)
    · exact Or.inr ⟨h1.trans h2, h1q.trans h2q⟩⟩

/-! ## Fixed-width row formatting
(`f"{actual.name:<20} | {actual.price:>6.2f} | {actual.quantity:^5}"`) -/

/-- A run of `n` spaces. -/
def spaces (n : ℕ) : String := String.mk (List.replicate n ' ')

/-- Python's `<w` alignment: left-justify, padding on the right (no
truncation when the text is longer than `w`). -/
def padRight (s : String) (w : ℕ) : String := s ++ spaces (w - s.length)

/-- Python's `>w` alignment: right-justify, padding on the left. -/
def padLeft (s : String) (w : ℕ) : String := spaces (w - s.length) ++ s

/-- Python's `^w` alignment: centre, the extra space (odd padding) going to
the right. -/
def centerPad (s : String) (w : ℕ) : String :=
  spaces ((w - s.length) / 2) ++ s ++ spaces (w - s.length - (w - s.length) / 2)

/-- `".2f"`: the value rounded to two decimals, rendered with exactly two
fractional digits. (The Python float is modelled as an exact rational.) -/
def formatFixed2 (q : ℚ) : String :=
  let scaled : ℤ := round (q * 100)
  let n : ℕ := scaled.natAbs
  (if scaled < 0 then "-" else "") ++ toString (n / 100) ++ "." ++
    (if n % 100 < 10 then "0" else "") ++ toString (n % 100)

/-- The row produced by `MenuSecondIterator.__next__` for one item. -/
def formatRow (item : MenuItem) : String :=
  padRight item.name 20 ++ " | " ++ padLeft (formatFixed2 item.price) 6 ++
    " | " ++ centerPad (toString item.quantity) 5

/-! ## Iterators -/

/-- `class MenuMainIterator`: holds the order and a cursor index. -/
structure MenuMainIterator where
  order : Order
  current_item_index : ℕ
deriving DecidableEq, Repr

/-- `MenuMainIterator.__init__`: cursor starts at 0; the order is not touched. -/
def mkMainIterator (o : Order) : MenuMainIterator :=
  { order := o, current_item_index := 0 }

/-- `MenuMainIterator.__next__`: `StopIteration` (here `none`) once the cursor
reaches `len(self.order)`, otherwise the item at the cursor and the bumped
cursor. The order itself is only read. -/
def mainNext (it : MenuMainIterator) : Option (MenuItem × MenuMainIterator) :=
  if it.current_item_index = it.order.menu_items.length then none
  else
    match it.order.menu_items[it.current_item_index]? with
    | some actual => some (actual, { it with current_item_index := it.current_item_index + 1 })
    | none => none

/-- `class MenuSecondIterator`: holds the order, a cursor, and the `list`
field that stores the `None` returned by `list.sort()`. -/
structure MenuSecondIterator where
  order : Order
  current_item_index : ℕ
  list : Option (List MenuItem)
deriving DecidableEq, Repr

/-- `MenuSecondIterator.__init__`: `self.order.menu_items.sort()` mutates the
shared order in place; its return value `None` is what lands in `self.list`.
The updated order (visible to every holder of the object) is returned
alongside the iterator. (The constructor also prints `self.list`; console
output is not modelled.) -/
def mkSecondIterator (o : Order) : Order × MenuSecondIterator :=
  let sorted : Order := { menu_items := menuSort o.menu_items }
  (sorted, { order := sorted, current_item_index := 0, list := none })

/-- `MenuSecondIterator.__next__`: like the main iterator but yields the
formatted fixed-width row instead of the item. -/
def secondNext (it : MenuSecondIterator) : Option (String × MenuSecondIterator) :=
  if it.current_item_index = it.order.menu_items.length then none
  else
    match it.order.menu_items[it.current_item_index]? with
    | some actual => some (formatRow actual, { it with current_item_index := it.current_item_index + 1 })
    | none => none

/-- `class MenuIterable`: pairs an order with the strategy code. -/
structure MenuIterable where
  order : Order
  method : ℤ

/-- The iterator object `MenuIterable.__iter__` can hand out. -/
inductive MenuIter where
  | main : MenuMainIterator → MenuIter
  | second : MenuSecondIterator → MenuIter

/-- `MenuIterable.__iter__`: the main iterator for code 1, the second
iterator for every other code. Returns the (possibly mutated) order too,
since constructing the second iterator sorts it in place. -/
def menuIterableIter (it : MenuIterable) : Order × MenuIter :=
  if it.method = 1 then (it.order, .main (mkMainIterator it.order))
  else
    let (o, s) := mkSecondIterator it.order
    (o, .second s)

/-- Running `MenuMainIterator.__next__` until `StopIteration`, with enough
fuel; returns the yielded items and the final iterator state. -/
def mainDrainAux : ℕ → MenuMainIterator → List MenuItem × MenuMainIterator
  | 0, it => ([], it)
  | fuel + 1, it =>
    match mainNext it with
    | none => ([], it)
    | some (x, it1) =>
      let (xs, itf) := mainDrainAux fuel it1
      (x :: xs, itf)

/-- A full primary-strategy traversal (`for item in MenuMainIterator(order)`):
the yielded items, and the final iterator state. -/
def mainTraverse (o : Order) : List MenuItem × MenuMainIterator :=
  mainDrainAux o.menu_items.length (mkMainIterator o)

/-- Running `MenuSecondIterator.__next__` until `StopIteration`. -/
def secondDrainAux : ℕ → MenuSecondIterator → List String × MenuSecondIterator
  | 0, it => ([], it)
  | fuel + 1, it =>
    match secondNext it with
    | none => ([], it)
    | some (x, it1) =>
      let (xs, itf) := secondDrainAux fuel it1
      (x :: xs, itf)

/-- A full secondary-strategy traversal (`for i in MenuSecondIterator(order)`):
construction (which sorts the shared order in place) followed by draining;
returns the yielded rows, the order as the caller now sees it, and the final
iterator state. -/
def secondTraverse (o : Order) : List String × Order × MenuSecondIterator :=
  let (o1, it) := mkSecondIterator o
  let (rows, itf) := secondDrainAux o1.menu_items.length it
  (rows, o1, itf)

/-! ## Traversal lemmas -/

theorem mainDrainAux_spec (n : ℕ) :
    ∀ it : MenuMainIterator,
      it.current_item_index + n = it.order.menu_items.length →
      mainDrainAux n it =
        (it.order.menu_items.drop it.current_item_index,
          { order := it.order,
            current_item_index := it.order.menu_items.length }) := by
  induction n with
  | zero =>
    rintro ⟨o, i⟩ h
    simp only [Nat.add_zero] at h
    subst h
    simp [mainDrainAux, List.drop_length]
  | succ n ih =>
    intro it h
    have hlt : it.current_item_index < it.order.menu_items.length := by omega
    have hne : it.current_item_index ≠ it.order.menu_items.length := by omega
    have hnext : mainNext it =
        some (it.order.menu_items[it.current_item_index],
          { it with current_item_index := it.current_item_index + 1 }) := by
      unfold mainNext
      rw [if_neg hne, List.getElem?_eq_getElem hlt]
    have hrec := ih { it with current_item_index := it.current_item_index + 1 }
      (by simpa using by omega)
    simp only [mainDrainAux, hnext, hrec]
    rw [List.drop_eq_getElem_cons hlt]

theorem secondDrainAux_spec (n : ℕ) :
    ∀ it : MenuSecondIterator,
      it.current_item_index + n = it.order.menu_items.length →
      secondDrainAux n it =
        ((it.order.menu_items.drop it.current_item_index).map formatRow,
          { order := it.order,
            current_item_index := it.order.menu_items.length,
            list := it.list }) := by
  induction n with
  | zero =>
    rintro ⟨o, i, s⟩ h
    simp only [Nat.add_zero] at h
    subst h
    simp [secondDrainAux, List.drop_length]
  | succ n ih =>
    intro it h
    have hlt : it.current_item_index < it.order.menu_items.length := by omega
    have hne : it.current_item_index ≠ it.order.menu_items.length := by omega
    have hnext : secondNext it =
        some (formatRow it.order.menu_items[it.current_item_index],
          { it with current_item_index := it.current_item_index + 1 }) := by
      unfold secondNext
      rw [if_neg hne, List.getElem?_eq_getElem hlt]
    have hrec := ih { it with current_item_index := it.current_item_index + 1 }
      (by simpa using by omega)
    simp only [secondDrainAux, hnext, hrec]
    rw [List.drop_eq_getElem_cons hlt, List.map_cons]

/-- The spec-level ascending ordering on items: by price, then by quantity. -/
def specLe (a b : MenuItem) : Prop :=
  a.price < b.price ∨ (a.price = b.price ∧ a.quantity ≤ b.quantity)

theorem menuSort_perm (l : List MenuItem) : List.Perm (menuSort l) l :=
  List.perm_insertionSort menuLe l

theorem menuSort_sorted (l : List MenuItem) : List.Sorted specLe (menuSort l) := by
  have h := List.sorted_insertionSort menuLe l
  exact h.imp fun hab => (menuLe_iff _ _).mp hab

theorem menuSort_eq_of_sorted {l : List MenuItem} (h : List.Sorted menuLe l) :
    menuSort l = l :=
  List.Sorted.insertionSort_eq h

/-- A full primary-strategy traversal yields exactly the stored items and
ends with the cursor at the end, the order untouched. -/
theorem mainTraverse_eq (o : Order) :
    mainTraverse o =
      (o.menu_items,
        { order := o, current_item_index := o.menu_items.length }) := by
  unfold mainTraverse mkMainIterator
  rw [mainDrainAux_spec _ _ (by simp)]
  simp

/-- A full secondary-strategy traversal yields the formatted rows of the
sorted item list, and the caller's order object now holds the sorted list. -/
theorem secondTraverse_eq (o : Order) :
    secondTraverse o =
      ((menuSort o.menu_items).map formatRow,
        { menu_items := menuSort o.menu_items },
        { order := { menu_items := menuSort o.menu_items },
          current_item_index := (menuSort o.menu_items).length,
          list := none }) := by
  unfold secondTraverse mkSecondIterator
  dsimp only
  rw [secondDrainAux_spec _ _ (by simp)]
  simp

/-! ## Concrete orders used as counterexample / witness inputs -/

/-- A two-item order stored in strictly descending price order. -/
def oDesc : Order := { menu_items := [⟨"a", 2, 1⟩, ⟨"b", 1, 1⟩] }

/-- Another descending two-item order (for a separate counterexample). -/
def oDesc2 : Order := { menu_items := [⟨"c", 3, 1⟩, ⟨"d", 1, 2⟩] }

/-- A one-item (hence already sorted) order. -/
def oOne : Order := { menu_items := [⟨"e", 1, 1⟩] }

/-! ## Claims -/

/-- **C1** (amended). A secondary-strategy traversal yields one row per item
(the rows are the image of a permutation of the stored items under the
fixed-width row format: name left-justified to 20 characters, price
right-justified with 2 decimals in a 6-character field, quantity centred in
a 5-character field), and the rows appear in the order sorted ascending by
(price, then quantity) — not in the original insertion order — because
`list.sort()` mutates the underlying list in place even though its `None`
return value is what gets stored in `self.list`. -/
theorem secondTraversal_rows_sorted (o : Order) :
    (secondTraverse o).1 = (menuSort o.menu_items).map formatRow ∧
    List.Perm (menuSort o.menu_items) o.menu_items ∧
    List.Sorted specLe (menuSort o.menu_items) :=
  ⟨by rw [secondTraverse_eq], menuSort_perm _, menuSort_sorted _⟩

/-- **C1** counterexample to the claim as stated: on the order `oDesc`
(prices 2 then 1) the secondary traversal does *not* produce the rows in the
original insertion order. -/
theorem secondTraversal_rows_not_insertion_order :
    (secondTraverse oDesc).1 ≠ oDesc.menu_items.map formatRow := by
  decide

/-- **C2** (amended). The primary traversal leaves the order untouched. The
secondary traversal leaves the order's stored sequence equal to the stable
ascending sort of the original — a permutation of it — hence unchanged
exactly when the original sequence was already sorted. -/
theorem traversal_frame (o : Order) :
    (mainTraverse o).2.order = o ∧
    (secondTraverse o).2.1.menu_items = menuSort o.menu_items ∧
    List.Perm (menuSort o.menu_items) o.menu_items ∧
    (List.Sorted menuLe o.menu_items → (secondTraverse o).2.1 = o) := by
  refine ⟨by rw [mainTraverse_eq], by rw [secondTraverse_eq], menuSort_perm _, ?_⟩
  intro hs
  rw [secondTraverse_eq]
  cases o with
  | mk l => simp [menuSort_eq_of_sorted hs]

/-- **C2** witness for the conditional part: on the already-sorted order
`oOne` the secondary traversal leaves the stored sequence unchanged. -/
theorem traversal_frame_witness :
    List.Sorted menuLe oOne.menu_items ∧ (secondTraverse oOne).2.1 = oOne :=
  ⟨by decide, (traversal_frame oOne).2.2.2 (by decide)⟩

/-- **C2** counterexample to the claim as stated: the secondary traversal of
the unsorted order `oDesc2` changes its stored sequence. -/
theorem secondTraversal_mutates :
    (secondTraverse oDesc2).2.1 ≠ oDesc2 := by
  decide

/-- **C3**. Constructing the second iterator — also what `MenuIterable`
hands out for every strategy code other than 1 — sorts the order's stored
list in place, ascending by (price, then quantity); the multiset of items is
preserved; and afterwards `show()`, default iteration and a primary-strategy
traversal of that order all run over the sorted list. -/
theorem second_iterator_sorts_in_place (o : Order) (m : ℤ) (hm : m ≠ 1) :
    (menuIterableIter { order := o, method := m }).1 =
      { menu_items := menuSort o.menu_items } ∧
    (menuIterableIter { order := o, method := m }).2 =
      .second { order := { menu_items := menuSort o.menu_items },
                current_item_index := 0, list := none } ∧
    List.Perm (menuSort o.menu_items) o.menu_items ∧
    List.Sorted specLe (menuSort o.menu_items) ∧
    Order.show { menu_items := menuSort o.menu_items } =
      (menuSort o.menu_items).map itemStr ∧
    Order.defaultIter { menu_items := menuSort o.menu_items } =
      menuSort o.menu_items ∧
    (mainTraverse { menu_items := menuSort o.menu_items }).1 =
      menuSort o.menu_items := by
  refine ⟨?_, ?_, menuSort_perm _, menuSort_sorted _, rfl, rfl, ?_⟩
  · simp [menuIterableIter, hm, mkSecondIterator]
  · simp [menuIterableIter, hm, mkSecondIterator]
  · rw [mainTraverse_eq]

/-- **C3** witness: strategy code 2 on the order `oDesc` ends with the
stored list sorted. -/
theorem second_iterator_sorts_in_place_witness :
    (2 : ℤ) ≠ 1 ∧
    (menuIterableIter { order := oDesc, method := 2 }).1 =
      { menu_items := menuSort oDesc.menu_items } :=
  ⟨by decide, (second_iterator_sorts_in_place oDesc 2 (by decide)).1⟩

/-- **C10**. Strategy code 1 hands out a fresh main iterator (cursor 0)
without touching the order; a full primary traversal yields exactly the
stored items in insertion order, is exhausted afterwards (`__next__` raises
`StopIteration`), leaves the order unchanged, and a second fresh traversal
yields the same sequence again. -/
theorem main_traversal_spec (o : Order) :
    menuIterableIter { order := o, method := 1 } =
      (o, .main (mkMainIterator o)) ∧
    (mainTraverse o).1 = o.menu_items ∧
    mainNext (mainTraverse o).2 = none ∧
    (mainTraverse o).2.order = o ∧
    (mainTraverse ((mainTraverse o).2.order)).1 = o.menu_items := by
  refine ⟨by simp [menuIterableIter], ?_, ?_, ?_, ?_⟩ <;>
    rw [mainTraverse_eq] <;> simp [mainNext, mainTraverse_eq]

/-- **C4** (amended). Construction with `price < 0` always fails with
`InvalidPrice` — for the base item and all four variants, which run the same
base constructor. Construction with `quantity <= 0` fails with
`InvalidQuantity` *provided* `price >= 0`: the price check comes first, so
an input violating both bounds fails with `InvalidPrice`. No other
operation raises: every other method is embedded as a total function. -/
theorem construction_errors (name : String) (p : ℚ) (q : ℤ) (size : String)
    (fl : Bool) :
    (p < 0 →
      mkMenuItem name p q = .error .invalidPrice ∧
      mkAppetizer name p q fl = .error .invalidPrice ∧
      mkMainCourse name p q fl = .error .invalidPrice ∧
      mkBeverage name p q size fl = .error .invalidPrice ∧
      mkDessert name p q fl = .error .invalidPrice) ∧
    (0 ≤ p → q ≤ 0 →
      mkMenuItem name p q = .error .invalidQuantity ∧
      mkAppetizer name p q fl = .error .invalidQuantity ∧
      mkMainCourse name p q fl = .error .invalidQuantity ∧
      mkBeverage name p q size fl = .error .invalidQuantity ∧
      mkDessert name p q fl = .error .invalidQuantity) := by
  constructor
  · intro hp
    have hbase : mkMenuItem name p q = .error .invalidPrice := by
      unfold mkMenuItem
      rw [if_pos hp]
    exact ⟨hbase,
      by simp [mkAppetizer, hbase, Except.map],
      by simp [mkMainCourse, hbase, Except.map],
      by simp [mkBeverage, hbase, Except.map],
      by simp [mkDessert, hbase, Except.map]⟩
  · intro hp hq
    have hbase : mkMenuItem name p q = .error .invalidQuantity := by
      unfold mkMenuItem
      rw [if_neg (not_lt.mpr hp), if_pos hq]
    exact ⟨hbase,
      by simp [mkAppetizer, hbase, Except.map],
      by simp [mkMainCourse, hbase, Except.map],
      by simp [mkBeverage, hbase, Except.map],
      by simp [mkDessert, hbase, Except.map]⟩

/-- **C4** witness: a negative price fails with `InvalidPrice`; a
non-positive quantity with a valid price fails with `InvalidQuantity`. -/
theorem construction_errors_witness :
    ((-1 : ℚ) < 0 ∧ mkMenuItem "x" (-1) 1 = .error .invalidPrice) ∧
    ((0 : ℚ) ≤ 0 ∧ (0 : ℤ) ≤ 0 ∧ mkMenuItem "x" 0 0 = .error .invalidQuantity) :=
  ⟨⟨by norm_num, ((construction_errors "x" (-1) 1 "s" true).1 (by norm_num)).1⟩,
   ⟨le_refl 0, le_refl 0,
    ((construction_errors "x" 0 0 "s" true).2 (le_refl 0) (le_refl 0)).1⟩⟩

/-- **C4** counterexample to the claim as stated: when both bounds are
violated (`price = -1`, `quantity = 0`) construction fails with
`InvalidPrice`, not `InvalidQuantity`, so "quantity <= 0 always fails with
InvalidQuantity" is false. -/
theorem quantity_error_not_always :
    mkMenuItem "x" (-1) 0 = .error .invalidPrice ∧
    mkMenuItem "x" (-1) 0 ≠ .error .invalidQuantity := by
  refine ⟨by rfl, ?_⟩
  rw [show mkMenuItem "x" (-1) 0 = .error .invalidPrice from by rfl]
  simp

/-- **C5**. For `price >= 0` and `quantity > 0`, base construction succeeds
with exactly the given fields, and `get_total_price` returns
`price * quantity`. -/
theorem valid_construction_total (name : String) (p : ℚ) (q : ℤ)
    (h1 : 0 ≤ p) (h2 : 0 < q) :
    mkMenuItem name p q = .ok { name := name, price := p, quantity := q } ∧
    MenuItem.get_total_price { name := name, price := p, quantity := q } =
      p * (q : ℚ) := by
  constructor
  · unfold mkMenuItem
    rw [if_neg (not_lt.mpr h1), if_neg (not_le.mpr h2)]
  · rfl

/-- **C5** witness: price 11/2, quantity 2 constructs and totals 11. -/
theorem valid_construction_total_witness :
    (0 : ℚ) ≤ 11 / 2 ∧ (0 : ℤ) < 2 ∧
    mkMenuItem "x" (11 / 2) 2 =
      .ok { name := "x", price := 11 / 2, quantity := 2 } ∧
    MenuItem.get_total_price { name := "x", price := 11 / 2, quantity := 2 } =
      11 / 2 * ((2 : ℤ) : ℚ) :=
  ⟨by norm_num, by norm_num,
    valid_construction_total "x" (11 / 2) 2 (by norm_num) (by norm_num)⟩

/-- **C6**. `__lt__` holds exactly when the price is strictly smaller, or
the prices are equal and the quantity is strictly smaller; in every other
case (equal price and equal quantity included) it is `False`. -/
theorem lt_characterisation (a b : MenuItem) :
    (menuLt a b = true ↔
      a.price < b.price ∨ (a.price = b.price ∧ a.quantity < b.quantity)) ∧
    (menuLt a b = false ↔
      ¬(a.price < b.price ∨ (a.price = b.price ∧ a.quantity < b.quantity))) := by
  have h := menuLt_iff a b
  refine ⟨h, ?_⟩
  rw [← h]
  cases menuLt a b <;> simp

/-- **C7**. With a valid base price `p`, each variant constructor stores
`p` times its fixed multiplier when its flag is true (Appetizer 0.95,
MainCourse 1.05, Beverage 1.05, Dessert 0.95), applied exactly once at
construction, and stores `p` unchanged when the flag is false. -/
theorem variant_multipliers (name : String) (p : ℚ) (q : ℤ) (size : String)
    (h1 : 0 ≤ p) (h2 : 0 < q) :
    (mkAppetizer name p q true).map (fun a => a.price) = .ok (p * 0.95) ∧
    (mkAppetizer name p q false).map (fun a => a.price) = .ok p ∧
    (mkMainCourse name p q true).map (fun m => m.price) = .ok (p * 1.05) ∧
    (mkMainCourse name p q false).map (fun m => m.price) = .ok p ∧
    (mkBeverage name p q size true).map (fun b => b.price) = .ok (p * 1.05) ∧
    (mkBeverage name p q size false).map (fun b => b.price) = .ok p ∧
    (mkDessert name p q true).map (fun d => d.price) = .ok (p * 0.95) ∧
    (mkDessert name p q false).map (fun d => d.price) = .ok p := by
  have hbase : mkMenuItem name p q = .ok { name := name, price := p, quantity := q } := by
    unfold mkMenuItem
    rw [if_neg (not_lt.mpr h1), if_neg (not_le.mpr h2)]
  refine ⟨?_, ?_, ?_, ?_, ?_, ?_, ?_, ?_⟩ <;>
    simp [mkAppetizer, mkMainCourse, mkBeverage, mkDessert, hbase,
      Except.map, MenuItem.change_price]

/-- **C7** witness at base price 2, quantity 1. -/
theorem variant_multipliers_witness :
    (0 : ℚ) ≤ 2 ∧ (0 : ℤ) < 1 ∧
    ((mkAppetizer "x" 2 1 true).map (fun a => a.price) = .ok (2 * 0.95) ∧
     (mkAppetizer "x" 2 1 false).map (fun a => a.price) = .ok 2 ∧
     (mkMainCourse "x" 2 1 true).map (fun m => m.price) = .ok (2 * 1.05) ∧
     (mkMainCourse "x" 2 1 false).map (fun m => m.price) = .ok 2 ∧
     (mkBeverage "x" 2 1 "s" true).map (fun b => b.price) = .ok (2 * 1.05) ∧
     (mkBeverage "x" 2 1 "s" false).map (fun b => b.price) = .ok 2 ∧
     (mkDessert "x" 2 1 true).map (fun d => d.price) = .ok (2 * 0.95) ∧
     (mkDessert "x" 2 1 false).map (fun d => d.price) = .ok 2) :=
  ⟨by norm_num, by norm_num,
    variant_multipliers "x" 2 1 "s" (by norm_num) (by norm_num)⟩

/-- **C8**. `calculate_bill` is the sum of `price * quantity` over all stored
items, and the bill of an empty order is 0. -/
theorem bill_is_sum (o : Order) :
    o.calculate_bill =
      (o.menu_items.map fun i => i.price * (i.quantity : ℚ)).sum ∧
    Order.calculate_bill { menu_items := [] } = 0 :=
  ⟨rfl, rfl⟩

/-- **C9**. `apply_discount` returns `bill * (1 - fraction)` for *every*
fraction (no range validation), spelled out as the item-wise sum so the
stored prices visibly enter unscaled; the embedding is a pure function of
the order because the method only reads it. -/
theorem discount_spec (o : Order) (d : ℚ) :
    o.apply_discount d = o.calculate_bill * (1 - d) ∧
    o.apply_discount d =
      (o.menu_items.map fun i => i.price * (i.quantity : ℚ)).sum * (1 - d) :=
  ⟨rfl, rfl⟩
